import Mathlib

set_option maxRecDepth 16000

/-!
Verification of the HubSpot CRM connector (`src/backend/integrations/hubspot.py`).

The module is shallowly embedded: Python JSON values become an inductive type,
the Redis-backed credential store becomes an explicit association list threaded
through the operations, each outbound HTTP call is represented by the response
the provider returns to it, and Python exceptions become an explicit
`Except PyExc` layer.  The four public operations of the module —
`authorize_hubspot`, `oauth2callback_hubspot`, `get_hubspot_credentials` and
`get_items_hubspot` — are translated line by line from the source.
-/

/-! ## JSON values

Python objects produced by `json.loads` / consumed by `json.dumps`.  Integral
JSON numbers are represented exactly (`num`); a numeric token with a fraction,
an exponent, or one of the non-finite spellings `NaN` / `Infinity` is carried
verbatim as `numF`, since no arithmetic is ever performed on it by the code
under verification.  Objects are association lists in insertion order, matching
Python dict semantics. -/

inductive JsonVal where
  | null
  | bool (b : Bool)
  | num (n : Int)
  | numF (tok : String)
  | str (s : String)
  | arr (elems : List JsonVal)
  | obj (fields : List (String × JsonVal))
  deriving Inhabited, Repr

/-- First-match lookup in an object, Python `dict.__getitem__` order. -/
def jsonGet : List (String × JsonVal) → String → Option JsonVal
  | [], _ => none
  | (k, v) :: rest, key => if k = key then some v else jsonGet rest key

/-- Python dict insertion: an existing key keeps its position and gets the new
value, a new key is appended. -/
def objInsert : List (String × JsonVal) → String → JsonVal → List (String × JsonVal)
  | [], k, v => [(k, v)]
  | (k0, v0) :: rest, k, v =>
    if k0 = k then (k0, v) :: rest else (k0, v0) :: objInsert rest k v

/-- Build a dict from a pair list in order (later duplicate keys win). -/
def objFromPairs (pairs : List (String × JsonVal)) : List (String × JsonVal) :=
  pairs.foldl (fun acc f => objInsert acc f.1 f.2) []

def objHasKey (fields : List (String × JsonVal)) (key : String) : Bool :=
  (jsonGet fields key).isSome

/-! ## Python exceptions relevant to the module -/

inductive PyExc where
  | typeError
  | attributeError
  | valueError
  | jsonDecodeError
  | keyError
  | httpStatusError (responseText : String)
  deriving DecidableEq, Repr, Inhabited

/-- Representative `str(e)` texts for the catch-all handler; no claim depends
on the exact wording. -/
def excMsg : PyExc → String
  | .typeError => "TypeError"
  | .attributeError => "AttributeError"
  | .valueError => "ValueError: invalid isoformat string"
  | .jsonDecodeError => "Expecting value: line 1 column 1 (char 0)"
  | .keyError => "KeyError"
  | .httpStatusError t => t

/-! ## Python semantic helpers -/

/-- Python `v.get(k, default)`: only mappings have `.get`; any other value
raises `AttributeError`. -/
def pyGetD (v : JsonVal) (k : String) (dflt : JsonVal) : Except PyExc JsonVal :=
  match v with
  | .obj fields => .ok ((jsonGet fields k).getD dflt)
  | _ => .error .attributeError

def isPrefixOfB : List Char → List Char → Bool
  | [], _ => true
  | _ :: _, [] => false
  | p :: ps, c :: cs => p == c && isPrefixOfB ps cs

def hasInfixB (pat : List Char) : List Char → Bool
  | [] => isPrefixOfB pat []
  | c :: cs => isPrefixOfB pat (c :: cs) || hasInfixB pat cs

/-- Python `needle in v`: key membership on dicts, element membership on
lists, substring test on strings, `TypeError` on anything else. -/
def pyIn (needle : String) (v : JsonVal) : Except PyExc Bool :=
  match v with
  | .obj fields => .ok (objHasKey fields needle)
  | .arr xs => .ok (xs.any fun x => match x with | .str s => s == needle | _ => false)
  | .str s => .ok (hasInfixB needle.data s.data)
  | _ => .error .typeError

/-- Python truthiness of the values above.  A fractional numeric token is
falsy exactly when it denotes 0.0 (no digit 1-9 and not NaN/Infinity). -/
def pyTruthy : JsonVal → Bool
  | .null => false
  | .bool b => b
  | .num n => n != 0
  | .numF tok => tok.data.any fun c => ('1' ≤ c && c ≤ '9') || c == 'N' || c == 'I'
  | .str s => s ≠ ""
  | .arr xs => !xs.isEmpty
  | .obj fs => !fs.isEmpty

mutual

/-- Python `repr` of a JSON-decoded value, used by `str()` on containers.
String reprs are simplified to plain single-quote wrapping; none of the
verified behaviour interpolates a container or a quoted string. -/
def pyRepr : JsonVal → String
  | .null => "None"
  | .bool b => if b then "True" else "False"
  | .num n => toString n
  | .numF tok => tok
  | .str s => "'" ++ s ++ "'"
  | .arr xs => "[" ++ pyReprElems xs ++ "]"
  | .obj fs => "\x7b" ++ pyReprFields fs ++ "\x7d"

def pyReprElems : List JsonVal → String
  | [] => ""
  | [x] => pyRepr x
  | x :: y :: xs => pyRepr x ++ ", " ++ pyReprElems (y :: xs)

def pyReprFields : List (String × JsonVal) → String
  | [] => ""
  | [(k, v)] => "'" ++ k ++ "': " ++ pyRepr v
  | (k, v) :: f :: fs => "'" ++ k ++ "': " ++ pyRepr v ++ ", " ++ pyReprFields (f :: fs)

end

/-- Python `str()` / f-string interpolation of a JSON-decoded value. -/
def pyStr : JsonVal → String
  | .str s => s
  | v => pyRepr v

def isPySpace (c : Char) : Bool :=
  c == ' ' || c == '\t' || c == '\n' || c == '\r' || c == '\x0b' || c == '\x0c'

/-- Python `str.strip()` (whitespace on both ends). -/
def pyStrip (s : String) : String :=
  ⟨((s.data.dropWhile isPySpace).reverse.dropWhile isPySpace).reverse⟩

/-- Python `str.split(sep)` for a one-character separator: `""` yields
`[""]`, adjacent separators yield empty fields. -/
def splitCh (sep : Char) : List Char → List (List Char)
  | [] => [[]]
  | c :: cs =>
    if c = sep then [] :: splitCh sep cs
    else
      match splitCh sep cs with
      | [] => [[c]]
      | t :: ts => (c :: t) :: ts

def pySplit (sep : Char) (s : String) : List String :=
  (splitCh sep s.data).map fun l => ⟨l⟩

/-- Python `s.replace("Z", "+00:00")` (all occurrences, one-character
pattern). -/
def replaceZ (s : String) : String :=
  ⟨s.data.foldr
    (fun c acc => if c = 'Z' then '+' :: '0' :: '0' :: ':' :: '0' :: '0' :: acc else c :: acc)
    []⟩

/-! ## `json.loads`

A recursive-descent parser for the JSON accepted by Python's strict-mode
decoder: the standard grammar plus the non-finite number spellings
`NaN` / `Infinity` / `-Infinity`, with raw control characters rejected inside
strings and duplicate object keys resolved last-wins.  An unpaired `\u`
surrogate escape (representable in Python, not in a Lean `String`) decodes to
U+FFFD.  The value-level functions are fuelled; `jsonLoads` supplies fuel that
strictly dominates the number of recursive calls any input of its length can
cause. -/

def isJsonWs (c : Char) : Bool :=
  c == ' ' || c == '\t' || c == '\n' || c == '\r'

def skipWs : List Char → List Char
  | [] => []
  | c :: cs => if isJsonWs c then skipWs cs else c :: cs

def dropLit : List Char → List Char → Option (List Char)
  | [], cs => some cs
  | _ :: _, [] => none
  | l :: ls, c :: cs => if c = l then dropLit ls cs else none

def hexDigitVal (c : Char) : Option Nat :=
  if '0' ≤ c && c ≤ '9' then some (c.toNat - 48)
  else if 'a' ≤ c && c ≤ 'f' then some (c.toNat - 87)
  else if 'A' ≤ c && c ≤ 'F' then some (c.toNat - 55)
  else none

def hex4Val (a b c d : Char) : Option Nat := do
  let x1 ← hexDigitVal a
  let x2 ← hexDigitVal b
  let x3 ← hexDigitVal c
  let x4 ← hexDigitVal d
  some (((x1 * 16 + x2) * 16 + x3) * 16 + x4)

def isHighSurrogate (n : Nat) : Bool := 0xD800 ≤ n && n ≤ 0xDBFF

def isLowSurrogate (n : Nat) : Bool := 0xDC00 ≤ n && n ≤ 0xDFFF

def combineSurrogates (hi lo : Nat) : Nat :=
  0x10000 + (hi - 0xD800) * 0x400 + (lo - 0xDC00)

def escCharOf (e : Char) : Option Char :=
  if e = '"' then some '"'
  else if e = '\\' then some '\\'
  else if e = '/' then some '/'
  else if e = 'n' then some '\n'
  else if e = 't' then some '\t'
  else if e = 'r' then some '\r'
  else if e = 'b' then some '\x08'
  else if e = 'f' then some '\x0c'
  else none

/-- Parse the body of a JSON string literal after its opening quote; returns
the decoded content and the characters after the closing quote.  Every
recursive call both consumes at least one character and spends one unit of
fuel, so fuel `length + 1` never runs out. -/
def parseJsonStringF : Nat → List Char → Option (String × List Char)
  | 0, _ => none
  | _, [] => none
  | fuel + 1, c :: cs =>
    if c = '"' then some ("", cs)
    else if c = '\\' then
      match cs with
      | [] => none
      | 'u' :: h1 :: h2 :: h3 :: h4 :: cs2 =>
        match hex4Val h1 h2 h3 h4 with
        | none => none
        | some n =>
          if isHighSurrogate n then
            match cs2 with
            | '\\' :: 'u' :: g1 :: g2 :: g3 :: g4 :: cs3 =>
              match hex4Val g1 g2 g3 g4 with
              | none => none
              | some m =>
                if isLowSurrogate m then
                  match parseJsonStringF fuel cs3 with
                  | some (rest, tail) =>
                    some (String.singleton (Char.ofNat (combineSurrogates n m)) ++ rest, tail)
                  | none => none
                else
                  match parseJsonStringF fuel ('\\' :: 'u' :: g1 :: g2 :: g3 :: g4 :: cs3) with
                  | some (rest, tail) => some (String.singleton '\uFFFD' ++ rest, tail)
                  | none => none
            | _ =>
              match parseJsonStringF fuel cs2 with
              | some (rest, tail) => some (String.singleton '\uFFFD' ++ rest, tail)
              | none => none
          else
            let ch := if isLowSurrogate n then '\uFFFD' else Char.ofNat n
            match parseJsonStringF fuel cs2 with
            | some (rest, tail) => some (String.singleton ch ++ rest, tail)
            | none => none
      | e :: cs1 =>
        match escCharOf e with
        | some ch =>
          match parseJsonStringF fuel cs1 with
          | some (rest, tail) => some (String.singleton ch ++ rest, tail)
          | none => none
        | none => none
    else if c.toNat < 32 then none
    else
      match parseJsonStringF fuel cs with
      | some (rest, tail) => some (String.singleton c ++ rest, tail)
      | none => none

def parseJsonString (cs : List Char) : Option (String × List Char) :=
  parseJsonStringF (cs.length + 1) cs

def spanDigits : List Char → List Char × List Char
  | [] => ([], [])
  | c :: cs =>
    if c.isDigit then
      let (d, r) := spanDigits cs
      (c :: d, r)
    else ([], c :: cs)

def digitsToNat (ds : List Char) : Nat :=
  ds.foldl (fun acc c => acc * 10 + (c.toNat - 48)) 0

/-- Parse a JSON number token: `-?(0|[1-9][0-9]*)(\.[0-9]+)?([eE][+-]?[0-9]+)?`.
An integral token becomes `num`; any fraction or exponent makes it a `numF`
carrying the token text. -/
def parseNumber (cs : List Char) : Option (JsonVal × List Char) :=
  let (negTok, cs1) : List Char × List Char :=
    match cs with
    | '-' :: r => (['-'], r)
    | _ => ([], cs)
  match spanDigits cs1 with
  | ([], _) => none
  | (ds, r1) =>
    if ds.length > 1 && ds.head? == some '0' then none
    else
      let intTok := negTok ++ ds
      let fracPart : Option (List Char × List Char) :=
        match r1 with
        | '.' :: r2 =>
          match spanDigits r2 with
          | ([], _) => none
          | (fs, r3) => some ('.' :: fs, r3)
        | _ => some ([], r1)
      match fracPart with
      | none => none
      | some (fracTok, r3) =>
        let expPart : Option (List Char × List Char) :=
          match r3 with
          | e :: r4 =>
            if e = 'e' || e = 'E' then
              let (sgn, r5) : List Char × List Char :=
                match r4 with
                | '+' :: r6 => (['+'], r6)
                | '-' :: r6 => (['-'], r6)
                | _ => ([], r4)
              match spanDigits r5 with
              | ([], _) => none
              | (es, r7) => some (e :: (sgn ++ es), r7)
            else some ([], r3)
          | [] => some ([], [])
        match expPart with
        | none => none
        | some (expTok, rest) =>
          if fracTok.isEmpty && expTok.isEmpty then
            let mag : Int := Int.ofNat (digitsToNat ds)
            some (.num (if negTok.isEmpty then mag else -mag), rest)
          else
            some (.numF ⟨intTok ++ fracTok ++ expTok⟩, rest)

mutual

def parseVal : Nat → List Char → Option (JsonVal × List Char)
  | 0, _ => none
  | fuel + 1, cs =>
    match skipWs cs with
    | [] => none
    | c :: rest =>
      if c = 'n' then (dropLit ['u', 'l', 'l'] rest).map fun r => (.null, r)
      else if c = 't' then (dropLit ['r', 'u', 'e'] rest).map fun r => (.bool true, r)
      else if c = 'f' then (dropLit ['a', 'l', 's', 'e'] rest).map fun r => (.bool false, r)
      else if c = 'N' then (dropLit ['a', 'N'] rest).map fun r => (.numF "NaN", r)
      else if c = 'I' then
        (dropLit ['n', 'f', 'i', 'n', 'i', 't', 'y'] rest).map fun r => (.numF "Infinity", r)
      else if c = '"' then (parseJsonString rest).map fun p => (.str p.1, p.2)
      else if c = '[' then
        match skipWs rest with
        | ']' :: r => some (.arr [], r)
        | r => (parseElems fuel r).map fun p => (.arr p.1, p.2)
      else if c = '\x7b' then
        match skipWs rest with
        | '\x7d' :: r => some (.obj [], r)
        | r => (parseFields fuel r).map fun p => (.obj (objFromPairs p.1), p.2)
      else if c = '-' then
        match rest with
        | 'I' :: r2 =>
          (dropLit ['n', 'f', 'i', 'n', 'i', 't', 'y'] r2).map fun r => (.numF "-Infinity", r)
        | _ => parseNumber (c :: rest)
      else parseNumber (c :: rest)

def parseElems : Nat → List Char → Option (List JsonVal × List Char)
  | 0, _ => none
  | fuel + 1, cs =>
    match parseVal fuel cs with
    | none => none
    | some (v, r) =>
      match skipWs r with
      | ',' :: r2 =>
        match parseElems fuel r2 with
        | some (vs, tail) => some (v :: vs, tail)
        | none => none
      | ']' :: r2 => some ([v], r2)
      | _ => none

def parseFields : Nat → List Char → Option (List (String × JsonVal) × List Char)
  | 0, _ => none
  | fuel + 1, cs =>
    match skipWs cs with
    | '"' :: r =>
      match parseJsonString r with
      | none => none
      | some (k, r1) =>
        match skipWs r1 with
        | ':' :: r2 =>
          match parseVal fuel r2 with
          | none => none
          | some (v, r3) =>
            match skipWs r3 with
            | ',' :: r4 =>
              match parseFields fuel r4 with
              | some (fs, tail) => some ((k, v) :: fs, tail)
              | none => none
            | '\x7d' :: r4 => some ([(k, v)], r4)
            | _ => none
        | _ => none
    | _ => none

end

/-- Python `json.loads`: parse one value, allow only trailing whitespace. -/
def jsonLoads (s : String) : Option JsonVal :=
  match parseVal (4 * s.data.length + 16) s.data with
  | some (v, rest) => if skipWs rest = [] then some v else none
  | none => none

/-! ## `json.dumps` (default options: ASCII-ensuring, separators `", "` and
`": "`) -/

def hexDigitChar (n : Nat) : Char :=
  if n < 10 then Char.ofNat (48 + n) else Char.ofNat (87 + (n - 10))

def hex4 (n : Nat) : String :=
  ⟨[hexDigitChar (n / 4096 % 16), hexDigitChar (n / 256 % 16),
    hexDigitChar (n / 16 % 16), hexDigitChar (n % 16)]⟩

def escapeJsonChar (c : Char) : String :=
  if c = '"' then "\\\""
  else if c = '\\' then "\\\\"
  else if c = '\n' then "\\n"
  else if c = '\t' then "\\t"
  else if c = '\r' then "\\r"
  else if c = '\x08' then "\\b"
  else if c = '\x0c' then "\\f"
  else if c.toNat < 32 then "\\u" ++ hex4 c.toNat
  else if c.toNat < 128 then String.singleton c
  else if c.toNat ≤ 0xFFFF then "\\u" ++ hex4 c.toNat
  else
    "\\u" ++ hex4 (0xD800 + (c.toNat - 0x10000) / 0x400) ++
    "\\u" ++ hex4 (0xDC00 + (c.toNat - 0x10000) % 0x400)

def escapeJsonString (s : String) : String :=
  s.data.foldl (fun acc c => acc ++ escapeJsonChar c) ""

mutual

def jsonDumps : JsonVal → String
  | .null => "null"
  | .bool b => if b then "true" else "false"
  | .num n => toString n
  | .numF tok => tok
  | .str s => "\"" ++ escapeJsonString s ++ "\""
  | .arr xs => "[" ++ dumpsElems xs ++ "]"
  | .obj fs => "\x7b" ++ dumpsFields fs ++ "\x7d"

def dumpsElems : List JsonVal → String
  | [] => ""
  | [x] => jsonDumps x
  | x :: y :: xs => jsonDumps x ++ ", " ++ dumpsElems (y :: xs)

def dumpsFields : List (String × JsonVal) → String
  | [] => ""
  | [(k, v)] => "\"" ++ escapeJsonString k ++ "\": " ++ jsonDumps v
  | (k, v) :: f :: fs =>
    "\"" ++ escapeJsonString k ++ "\": " ++ jsonDumps v ++ ", " ++ dumpsFields (f :: fs)

end

/-! ## `datetime.fromisoformat` (restricted grammar)

The source parses timestamps with
`datetime.fromisoformat(value.replace("Z", "+00:00"))`.  The model covers the
grammar `YYYY-MM-DD[{T,space}HH:MM:SS[.f{1-6}][±HH:MM]]` — the shapes the
module's provider fields and the spec's examples exercise — with full
calendar validation; anything else fails, which in Python raises
`ValueError`. -/

structure PyDateTime where
  year : Nat
  month : Nat
  day : Nat
  hour : Nat
  minute : Nat
  second : Nat
  microsecond : Nat
  utcOffsetMinutes : Option Int
  deriving DecidableEq, Repr

def isLeapYear (y : Nat) : Bool :=
  y % 4 == 0 && (y % 100 != 0 || y % 400 == 0)

def daysInMonth (y m : Nat) : Nat :=
  if m = 2 then (if isLeapYear y then 29 else 28)
  else if m = 4 ∨ m = 6 ∨ m = 9 ∨ m = 11 then 30
  else 31

def digitVal (c : Char) : Nat := c.toNat - 48

def twoDigits : List Char → Option (Nat × List Char)
  | a :: b :: rest =>
    if a.isDigit && b.isDigit then some (digitVal a * 10 + digitVal b, rest) else none
  | _ => none

def fourDigits : List Char → Option (Nat × List Char)
  | a :: b :: c :: d :: rest =>
    if a.isDigit && b.isDigit && c.isDigit && d.isDigit then
      some (((digitVal a * 10 + digitVal b) * 10 + digitVal c) * 10 + digitVal d, rest)
    else none
  | _ => none

def expectChar (c : Char) : List Char → Option (List Char)
  | x :: rest => if x = c then some rest else none
  | [] => none

/-- Fraction digits after the dot: 1 to 6 digits, scaled to microseconds. -/
def parseFractionDigits (cs : List Char) : Option (Nat × List Char) :=
  match spanDigits cs with
  | ([], _) => none
  | (ds, rest) =>
    if ds.length ≤ 6 then some (digitsToNat ds * 10 ^ (6 - ds.length), rest) else none

/-- Trailing timezone suffix: empty, or `±HH:MM` with a sub-24h offset. -/
def parseTzSuffix : List Char → Option (Option Int)
  | [] => some none
  | c :: rest =>
    if c = '+' ∨ c = '-' then do
      let (h, r1) ← twoDigits rest
      let r2 ← expectChar ':' r1
      let (m, r3) ← twoDigits r2
      if h ≤ 23 ∧ m ≤ 59 ∧ r3 = [] then
        let total : Int := Int.ofNat (h * 60 + m)
        some (some (if c = '-' then -total else total))
      else none
    else none

def isoParse (s : String) : Option PyDateTime := do
  let (y, r1) ← fourDigits s.data
  let r2 ← expectChar '-' r1
  let (mo, r3) ← twoDigits r2
  let r4 ← expectChar '-' r3
  let (d, r5) ← twoDigits r4
  if 1 ≤ y ∧ 1 ≤ mo ∧ mo ≤ 12 ∧ 1 ≤ d ∧ d ≤ daysInMonth y mo then
    match r5 with
    | [] => some ⟨y, mo, d, 0, 0, 0, 0, none⟩
    | sep :: r6 =>
      if sep = 'T' ∨ sep = ' ' then do
        let (h, r7) ← twoDigits r6
        let r8 ← expectChar ':' r7
        let (mi, r9) ← twoDigits r8
        let r10 ← expectChar ':' r9
        let (sec, r11) ← twoDigits r10
        if h ≤ 23 ∧ mi ≤ 59 ∧ sec ≤ 59 then do
          let (micro, r12) ←
            match r11 with
            | '.' :: rf => parseFractionDigits rf
            | _ => some (0, r11)
          let off ← parseTzSuffix r12
          some ⟨y, mo, d, h, mi, sec, micro, off⟩
        else none
      else none
  else none

/-! ## External collaborators -/

/-- Modelled from the spec: the Credential Store contract of §6
(`redis_client.add_key_value_redis` / `get_value_redis` are not part of the
sources).  `set(key, value, ttl)` stores a string under a key with an
expiration argument (passed through verbatim, since the module forwards
whatever `expires_in` holds); `get(key)` returns the stored string or
absence.  A re-used key is overwritten in place (last write wins, §5). -/
structure StoreEntry where
  key : String
  value : String
  expire : JsonVal
  deriving Repr

abbrev CredStore := List StoreEntry

def storeSet : CredStore → String → String → JsonVal → CredStore
  | [], k, v, ttl => [⟨k, v, ttl⟩]
  | e :: rest, k, v, ttl =>
    if e.key = k then ⟨k, v, ttl⟩ :: rest else e :: storeSet rest k v ttl

def storeGetEntry : CredStore → String → Option StoreEntry
  | [], _ => none
  | e :: rest, k => if e.key = k then some e else storeGetEntry rest k

def storeGet (st : CredStore) (k : String) : Option String :=
  (storeGetEntry st k).map (·.value)

/-- One provider HTTP response, the outcome of the single outbound call an
operation makes.  `httpx.Response.raise_for_status` raises exactly when the
status is not a 2xx success code. -/
structure HttpResp where
  status : Nat
  body : String
  deriving DecidableEq, Repr

def HttpResp.is2xx (r : HttpResp) : Bool :=
  200 ≤ r.status && r.status < 300

/-- Modelled from the spec: the environment-supplied configuration constants
(§6), represented by fixed placeholder values; their exact text is irrelevant
to every claim, only that they contain no query-string metacharacters. -/
def HUBSPOT_CLIENT_ID : String := "hs-client-id-123"

def HUBSPOT_CLIENT_SECRET : String := "hs-client-secret-456"

def HUBSPOT_REDIRECT_URI : String := "http://localhost:8000/integrations/hubspot/oauth2callback"

/-! ## `authorize_hubspot` (source lines 27-37) -/

def hubspotAuthUrl (user_id org_id : String) : String :=
  "https://app.hubspot.com/oauth/authorize?" ++
  "client_id=" ++ HUBSPOT_CLIENT_ID ++ "&" ++
  "redirect_uri=" ++ HUBSPOT_REDIRECT_URI ++ "&" ++
  "scope=crm.objects.contacts.read%20crm.objects.contacts.write&" ++
  "state=" ++ (user_id ++ "_" ++ org_id)

/-- `authorize_hubspot(user_id, org_id)`: returns
`{"authorization_url": auth_url}`; no side effects. -/
def authorize_hubspot (user_id org_id : String) : JsonVal :=
  .obj [("authorization_url", .str (hubspotAuthUrl user_id org_id))]

/-! ## `oauth2callback_hubspot` (source lines 40-140) -/

/-- The callback's return value: an `{"error": msg}` payload or the static
HTML confirmation page (whose markup carries no data and is not modelled). -/
inductive CallbackResult where
  | errPayload (msg : String)
  | successPage
  deriving DecidableEq, Repr

def credKey (user_id org_id : String) : String :=
  "hubspot_credentials_" ++ user_id ++ "_" ++ org_id

/-- `oauth2callback_hubspot(request)`.  Inputs: the `code` and `state` query
parameters (absent ↦ `none`; `state` defaults to `""`), the token-endpoint
response, and the store.  The `try` block catches only `HTTPStatusError` and
`JSONDecodeError`; the `.get("expires_in", 1800)` on the decoded body runs
outside it and can raise. -/
def oauth2callback_hubspot (code stateParam : Option String) (tokenResp : HttpResp)
    (store : CredStore) : Except PyExc (CallbackResult × CredStore) :=
  let state := stateParam.getD ""
  if code.getD "" = "" then .ok (.errPayload "Authorization code not found", store)
  else
    match pySplit '_' state with
    | [user_id, org_id] =>
      if tokenResp.is2xx then
        match jsonLoads tokenResp.body with
        | some response_json =>
          match pyGetD response_json "expires_in" (.num 1800) with
          | .ok ttl =>
            .ok (.successPage,
              storeSet store (credKey user_id org_id) (jsonDumps response_json) ttl)
          | .error e => .error e
        | none => .ok (.errPayload "Invalid response from HubSpot", store)
      else .ok (.errPayload tokenResp.body, store)
    | _ => .ok (.errPayload "Invalid state parameter", store)

/-! ## `get_hubspot_credentials` (source lines 143-156) -/

def noCredentialsPayload : JsonVal :=
  .obj [("error", .str "No valid credentials found. Please authorize HubSpot.")]

def parseFailureLog : String := "Failed to parse stored HubSpot credentials."

/-- `get_hubspot_credentials(user_id, org_id)`.  Returns the payload plus the
log lines emitted; only `json.JSONDecodeError` is caught, so the
`"access_token" in credentials` test on a non-container decoded value raises
`TypeError` past the function. -/
def get_hubspot_credentials (user_id org_id : String) (store : CredStore) :
    Except PyExc (JsonVal × List String) :=
  match storeGet store (credKey user_id org_id) with
  | some stored =>
    if stored = "" then .ok (noCredentialsPayload, [])
    else
      match jsonLoads stored with
      | some credentials =>
        match pyIn "access_token" credentials with
        | .ok true => .ok (credentials, [])
        | .ok false => .ok (noCredentialsPayload, [])
        | .error e => .error e
      | none => .ok (noCredentialsPayload, [parseFailureLog])
  | none => .ok (noCredentialsPayload, [])

/-! ## `get_items_hubspot` (source lines 159-249) -/

/-- Modelled from the spec: the `IntegrationItem` container class
(`integration_item.py` is not part of the sources).  Per §3 it is a plain
normalized record holding the constructor arguments unchanged. -/
structure IntegrationItem where
  id : JsonVal
  type : String
  name : String
  email : JsonVal
  creation_time : Option PyDateTime
  last_modified_time : Option PyDateTime
  metadata : List (String × JsonVal)
  raw_data : JsonVal
  visibility : Bool
  deriving Repr

/-- The metadata dict literal of source lines 197-214, in evaluation order.
`props.get("company", "No Company")` interpolated into the f-string is
`pyStr` of the raw value when the key is present. -/
def contactMetadata (contact props : JsonVal) : Except PyExc (List (String × JsonVal)) := do
  let hubspot_id ← pyGetD contact "id" .null
  let created_at ← pyGetD props "createdate" .null
  let updated_at ← pyGetD props "lastmodifieddate" .null
  let company ← pyGetD props "company" .null
  let website ← pyGetD props "website" .null
  let address ← pyGetD props "address" .null
  let city ← pyGetD props "city" .null
  let stateProp ← pyGetD props "state" .null
  let country ← pyGetD props "country" .null
  let phone ← pyGetD props "phone" .null
  let mobile_phone ← pyGetD props "mobilephone" .null
  let job_title ← pyGetD props "jobtitle" .null
  let industry ← pyGetD props "industry" .null
  let lifecycle_stage ← pyGetD props "lifecyclestage" .null
  let lead_status ← pyGetD props "lead_status" .null
  let companyOrDefault ← pyGetD props "company" (.str "No Company")
  .ok
    [("hubspot_id", hubspot_id),
     ("created_at", created_at),
     ("updated_at", updated_at),
     ("company", company),
     ("website", website),
     ("address", address),
     ("city", city),
     ("state", stateProp),
     ("country", country),
     ("phone", phone),
     ("mobile_phone", mobile_phone),
     ("job_title", job_title),
     ("industry", industry),
     ("lifecycle_stage", lifecycle_stage),
     ("lead_status", lead_status),
     ("description", .str ("Contact at " ++ pyStr companyOrDefault))]

/-- Source lines 217-224: `datetime.fromisoformat(props[f].replace("Z",
"+00:00")) if f in props else None`.  When reached, `props` is a dict (a
non-dict already raised inside the metadata literal); a non-string present
value has no `.replace` (`AttributeError`), an unparsable string raises
`ValueError`. -/
def parseTimestampProp (props : JsonVal) (field : String) : Except PyExc (Option PyDateTime) :=
  match props with
  | .obj fields =>
    match jsonGet fields field with
    | none => .ok none
    | some (.str s) =>
      match isoParse (replaceZ s) with
      | some dt => .ok (some dt)
      | none => .error .valueError
    | some _ => .error .attributeError
  | _ => .error .typeError

/-- One iteration of the `for contact in data.get("results", [])` loop
(source lines 194-236), producing the `IntegrationItem` constructor call. -/
def buildIntegrationItem (contact : JsonVal) : Except PyExc IntegrationItem := do
  let props ← pyGetD contact "properties" (.obj [])
  let metadata ← contactMetadata contact props
  let creation_time ← parseTimestampProp props "createdate"
  let last_modified_time ← parseTimestampProp props "lastmodifieddate"
  let idVal ← pyGetD contact "id" .null
  let firstname ← pyGetD props "firstname" (.str "")
  let lastname ← pyGetD props "lastname" (.str "")
  let email ← pyGetD props "email" .null
  .ok
    { id := idVal
      type := "contact"
      name := pyStrip (pyStr firstname ++ " " ++ pyStr lastname)
      email := email
      creation_time := creation_time
      last_modified_time := last_modified_time
      metadata := metadata
      raw_data := contact
      visibility := true }

def buildItems : List JsonVal → Except PyExc (List IntegrationItem)
  | [] => .ok []
  | c :: cs => do
    let item ← buildIntegrationItem c
    let rest ← buildItems cs
    .ok (item :: rest)

/-- Python iteration over a decoded JSON value: lists yield elements, strings
yield one-character strings, dicts yield their keys, anything else raises
`TypeError`. -/
def pyIterate : JsonVal → Except PyExc (List JsonVal)
  | .arr xs => .ok xs
  | .str s => .ok (s.data.map fun c => .str (String.singleton c))
  | .obj fs => .ok (fs.map fun f => JsonVal.str f.1)
  | _ => .error .typeError

/-- `get_items_hubspot` returns either the item list or an `{"error": msg}`
payload. -/
inductive FetchResult where
  | items (xs : List IntegrationItem)
  | errPayload (msg : String)
  deriving Repr

def FetchResult.isErr : FetchResult → Bool
  | .items _ => false
  | .errPayload _ => true

/-- The body of `get_items_hubspot`'s `try` block.  Inputs: the credentials
argument (a decoded value or a JSON string) and the listing-endpoint
response. -/
def getItemsAttempt (credentials : JsonVal) (listResp : HttpResp) :
    Except PyExc FetchResult := do
  let credentials_dict ←
    match credentials with
    | .str s =>
      match jsonLoads s with
      | some v => Except.ok v
      | none => Except.error PyExc.jsonDecodeError
    | v => Except.ok v
  let access_token ← pyGetD credentials_dict "access_token" .null
  if pyTruthy access_token = false then
    .ok (.errPayload "Access token is missing")
  else if listResp.is2xx = false then
    .error (.httpStatusError listResp.body)
  else
    match jsonLoads listResp.body with
    | none => .error .jsonDecodeError
    | some data => do
      let results ← pyGetD data "results" (.arr [])
      let contacts ← pyIterate results
      let items ← buildItems contacts
      .ok (.items items)

/-- `get_items_hubspot(credentials)` (source lines 159-249): the `try` body
above, with `HTTPStatusError` answered by the raw response text and every
other exception by its message — the function itself never raises. -/
def get_items_hubspot (credentials : JsonVal) (listResp : HttpResp) : FetchResult :=
  match getItemsAttempt credentials listResp with
  | .ok r => r
  | .error (.httpStatusError responseText) => .errPayload responseText
  | .error e => .errPayload (excMsg e)

/-! ## Reading a query parameter back out of a URL

Used to state the round-trip property of the `state` parameter: the query
component (between the first `?` and any `#`) split on `&`, each parameter
split at its first `=`.  Values are taken verbatim (no percent-decoding). -/

def dropToQueryStart : List Char → List Char
  | [] => []
  | c :: cs => if c = '?' then cs else dropToQueryStart cs

def takeToHash : List Char → List Char
  | [] => []
  | c :: cs => if c = '#' then [] else c :: takeToHash cs

def splitFirstEq : List Char → List Char × List Char
  | [] => ([], [])
  | c :: cs =>
    if c = '=' then ([], cs)
    else
      let p := splitFirstEq cs
      (c :: p.1, p.2)

def urlQueryPairs (url : String) : List (String × String) :=
  (splitCh '&' (takeToHash (dropToQueryStart url.data))).map fun kv =>
    let p := splitFirstEq kv
    (⟨p.1⟩, ⟨p.2⟩)

/-- All values carried by `state` parameters of the URL, in order. -/
def urlStateValues (url : String) : List String :=
  ((urlQueryPairs url).filter fun p => p.1 == "state").map (·.2)

/-! ## Values used in the claims -/

def tokenFields600 : List (String × JsonVal) :=
  [("access_token", .str "tok123"), ("expires_in", .num 600)]

/-- The spec's example token response with `expires_in` 600. -/
def tokenResponse600 : JsonVal := .obj tokenFields600

def tokenFieldsBare : List (String × JsonVal) := [("access_token", .str "tok123")]

/-- The spec's example token response without `expires_in`. -/
def tokenResponseBare : JsonVal := .obj tokenFieldsBare

/-- The metadata association list the loop body produces for a contact whose
`properties` value is the dict `pf` — definitionally equal to what
`contactMetadata` returns there. -/
def metadataListOf (cf pf : List (String × JsonVal)) : List (String × JsonVal) :=
  [("hubspot_id", (jsonGet cf "id").getD .null),
   ("created_at", (jsonGet pf "createdate").getD .null),
   ("updated_at", (jsonGet pf "lastmodifieddate").getD .null),
   ("company", (jsonGet pf "company").getD .null),
   ("website", (jsonGet pf "website").getD .null),
   ("address", (jsonGet pf "address").getD .null),
   ("city", (jsonGet pf "city").getD .null),
   ("state", (jsonGet pf "state").getD .null),
   ("country", (jsonGet pf "country").getD .null),
   ("phone", (jsonGet pf "phone").getD .null),
   ("mobile_phone", (jsonGet pf "mobilephone").getD .null),
   ("job_title", (jsonGet pf "jobtitle").getD .null),
   ("industry", (jsonGet pf "industry").getD .null),
   ("lifecycle_stage", (jsonGet pf "lifecyclestage").getD .null),
   ("lead_status", (jsonGet pf "lead_status").getD .null),
   ("description", .str ("Contact at " ++ pyStr ((jsonGet pf "company").getD (.str "No Company"))))]

/-- The fixed key set of every produced metadata mapping. -/
def metadataKeys : List String :=
  ["hubspot_id", "created_at", "updated_at", "company", "website", "address", "city",
   "state", "country", "phone", "mobile_phone", "job_title", "industry",
   "lifecycle_stage", "lead_status", "description"]

/-- Metadata keys copied from a provider property, with their source
property name. -/
def metadataPropSources : List (String × String) :=
  [("created_at", "createdate"), ("updated_at", "lastmodifieddate"),
   ("company", "company"), ("website", "website"), ("address", "address"),
   ("city", "city"), ("state", "state"), ("country", "country"),
   ("phone", "phone"), ("mobile_phone", "mobilephone"), ("job_title", "jobtitle"),
   ("industry", "industry"), ("lifecycle_stage", "lifecyclestage"),
   ("lead_status", "lead_status")]

/-- The one-record listing response of the spec's §8 example. -/
def janeRecord : JsonVal :=
  .obj [("id", .str "1"),
        ("properties", .obj [("firstname", .str "Jane"), ("lastname", .str "Doe"),
                             ("company", .str "Acme"),
                             ("createdate", .str "2023-01-01T00:00:00Z")])]

def janeListing : JsonVal := .obj [("results", .arr [janeRecord])]

/-- A contact record whose `company` property is present but null. -/
def nullCompanyRecord : JsonVal :=
  .obj [("id", .str "2"), ("properties", .obj [("company", JsonVal.null)])]

/-- A contact record whose `createdate` is malformed while its
`lastmodifieddate` is well-formed. -/
def mixedTimestampRecord : JsonVal :=
  .obj [("id", .str "9"),
        ("properties", .obj [("createdate", .str "garbage"),
                             ("lastmodifieddate", .str "2023-01-01T00:00:00Z")])]

/-- A contact record whose only timestamp is malformed. -/
def badModifiedRecord : JsonVal :=
  .obj [("id", .str "7"), ("properties", .obj [("lastmodifieddate", .str "not-a-date")])]

def jsonIsObj : JsonVal → Bool
  | .obj _ => true
  | _ => false

def jsonIsContainer : JsonVal → Bool
  | .obj _ => true
  | .arr _ => true
  | .str _ => true
  | _ => false

def exceptIsOk {ε α : Type} : Except ε α → Bool
  | .ok _ => true
  | .error _ => false

/-- The safety condition under which the `state` round trip holds: nonempty
and free of the delimiter and of the characters that end or alter a query
parameter value. -/
def urlStateSafe (s : String) : Prop :=
  s ≠ "" ∧ ∀ c ∈ s.data, c ∉ ['_', '&', '#', '%', '+', ';', ' ']

instance (s : String) : Decidable (urlStateSafe s) := by
  unfold urlStateSafe; infer_instance

/-- The three fixed query parameters preceding `state` in the authorization
URL, and the full query prefix up to the `state` value. -/
def urlQA1 : String := "client_id=" ++ HUBSPOT_CLIENT_ID

def urlQA2 : String := "redirect_uri=" ++ HUBSPOT_REDIRECT_URI

def urlQA3 : String := "scope=crm.objects.contacts.read%20crm.objects.contacts.write"

def urlQFull : String := urlQA1 ++ "&" ++ urlQA2 ++ "&" ++ urlQA3 ++ "&state="

/-! ## Helper lemmas -/

theorem string_data_append (a b : String) : (a ++ b).data = a.data ++ b.data := rfl

theorem splitCh_eq_single {sep : Char} {xs : List Char} (h : sep ∉ xs) :
    splitCh sep xs = [xs] := by
  induction xs with
  | nil => rfl
  | cons c cs ih =>
    have hc : ¬c = sep := by rintro rfl; exact h (List.mem_cons_self _ _)
    have hcs : sep ∉ cs := fun hm => h (List.mem_cons_of_mem _ hm)
    simp [splitCh, hc, ih hcs]

theorem splitCh_append_sep {sep : Char} {xs ys : List Char} (h : sep ∉ xs) :
    splitCh sep (xs ++ sep :: ys) = xs :: splitCh sep ys := by
  induction xs with
  | nil => simp [splitCh]
  | cons c cs ih =>
    have hc : ¬c = sep := by rintro rfl; exact h (List.mem_cons_self _ _)
    have hcs : sep ∉ cs := fun hm => h (List.mem_cons_of_mem _ hm)
    simp [splitCh, hc, ih hcs]

theorem pySplit_underscore {u o : String} (hu : '_' ∉ u.data) (ho : '_' ∉ o.data) :
    pySplit '_' (u ++ "_" ++ o) = [u, o] := by
  have hdata : (u ++ "_" ++ o).data = u.data ++ '_' :: o.data := by
    simp [string_data_append]
  unfold pySplit
  rw [hdata, splitCh_append_sep hu, splitCh_eq_single ho]
  rfl

theorem storeGetEntry_storeSet_self (st : CredStore) (k v : String) (ttl : JsonVal) :
    storeGetEntry (storeSet st k v ttl) k = some ⟨k, v, ttl⟩ := by
  induction st with
  | nil => simp [storeSet, storeGetEntry]
  | cons e rest ih =>
    by_cases he : e.key = k
    · simp [storeSet, storeGetEntry, he]
    · simp [storeSet, storeGetEntry, he, ih]

theorem storeGet_storeSet_self (st : CredStore) (k v : String) (ttl : JsonVal) :
    storeGet (storeSet st k v ttl) k = some v := by
  simp [storeGet, storeGetEntry_storeSet_self]

theorem exceptBind_ok {ε α β : Type} (a : α) (f : α → Except ε β) :
    ((Except.ok a : Except ε α) >>= f) = f a := rfl

theorem exceptBind_error {ε α β : Type} (e : ε) (f : α → Except ε β) :
    ((Except.error e : Except ε α) >>= f) = (Except.error e : Except ε β) := rfl

theorem jsonGet_eq_none_of_not_mem {fs : List (String × JsonVal)} {k : String}
    (h : k ∉ fs.map Prod.fst) : jsonGet fs k = none := by
  induction fs with
  | nil => rfl
  | cons f rest ih =>
    have hk : ¬f.1 = k := by
      rintro rfl; exact h (List.mem_map_of_mem Prod.fst (List.mem_cons_self _ _))
    have hrest : k ∉ rest.map Prod.fst := fun hm => h (List.mem_cons_of_mem _ hm)
    cases f with
    | mk k0 v0 => simpa [jsonGet, hk] using ih hrest

theorem objHasKey_of_mem {fs : List (String × JsonVal)} {k : String}
    (h : k ∈ fs.map Prod.fst) : objHasKey fs k = true := by
  induction fs with
  | nil => simp at h
  | cons f rest ih =>
    cases f with
    | mk k0 v0 =>
      by_cases hk : k0 = k
      · simp [objHasKey, jsonGet, hk]
      · have : k ∈ rest.map Prod.fst := by
          rcases (by simpa using h) with h1 | h2
          · exact absurd h1.symm hk
          · simpa using h2
        simpa [objHasKey, jsonGet, hk] using ih this

theorem objHasKey_of_not_mem {fs : List (String × JsonVal)} {k : String}
    (h : k ∉ fs.map Prod.fst) : objHasKey fs k = false := by
  simp [objHasKey, jsonGet_eq_none_of_not_mem h]

theorem takeToHash_of_not_mem {cs : List Char} (h : '#' ∉ cs) : takeToHash cs = cs := by
  induction cs with
  | nil => rfl
  | cons c rest ih =>
    have hc : ¬c = '#' := by rintro rfl; exact h (List.mem_cons_self _ _)
    have hrest : '#' ∉ rest := fun hm => h (List.mem_cons_of_mem _ hm)
    simp [takeToHash, hc, ih hrest]

theorem dropToQueryStart_append {xs ys : List Char} (h : '?' ∉ xs) :
    dropToQueryStart (xs ++ '?' :: ys) = ys := by
  induction xs with
  | nil => simp [dropToQueryStart]
  | cons c rest ih =>
    have hc : ¬c = '?' := by rintro rfl; exact h (List.mem_cons_self _ _)
    have hrest : '?' ∉ rest := fun hm => h (List.mem_cons_of_mem _ hm)
    simp [dropToQueryStart, hc, ih hrest]

theorem splitFirstEq_append {xs ys : List Char} (h : '=' ∉ xs) :
    splitFirstEq (xs ++ '=' :: ys) = (xs, ys) := by
  induction xs with
  | nil => simp [splitFirstEq]
  | cons c rest ih =>
    have hc : ¬c = '=' := by rintro rfl; exact h (List.mem_cons_self _ _)
    have hrest : '=' ∉ rest := fun hm => h (List.mem_cons_of_mem _ hm)
    simp [splitFirstEq, hc, ih hrest]

theorem buildItems_ok_length {recs : List JsonVal} {items : List IntegrationItem}
    (h : buildItems recs = .ok items) : items.length = recs.length := by
  induction recs generalizing items with
  | nil =>
    simp [buildItems] at h
    simp [← h]
  | cons c cs ih =>
    rw [buildItems] at h
    cases hb : buildIntegrationItem c with
    | error e => rw [hb, exceptBind_error] at h; simp at h
    | ok item =>
      rw [hb, exceptBind_ok] at h
      cases hr : buildItems cs with
      | error e => rw [hr, exceptBind_error] at h; simp at h
      | ok rest =>
        rw [hr, exceptBind_ok] at h
        simp only [Except.ok.injEq] at h
        rw [← h]
        simp [ih hr]

theorem buildItems_ok_get {recs : List JsonVal} {items : List IntegrationItem}
    (h : buildItems recs = .ok items) :
    ∀ i (hi : i < recs.length) (hj : i < items.length),
      buildIntegrationItem (recs.get ⟨i, hi⟩) = .ok (items.get ⟨i, hj⟩) := by
  induction recs generalizing items with
  | nil => intro i hi; simp at hi
  | cons c cs ih =>
    rw [buildItems] at h
    cases hb : buildIntegrationItem c with
    | error e => rw [hb, exceptBind_error] at h; simp at h
    | ok item =>
      rw [hb, exceptBind_ok] at h
      cases hr : buildItems cs with
      | error e => rw [hr, exceptBind_error] at h; simp at h
      | ok rest =>
        rw [hr, exceptBind_ok] at h
        simp only [Except.ok.injEq] at h
        intro i hi hj
        cases i with
        | zero => simpa [← h] using hb
        | succ n =>
          have hn : n < cs.length := by simpa using hi
          have hn2 : n < rest.length := by
            have := buildItems_ok_length hr
            omega
          have := ih hr n hn hn2
          simpa [← h] using this

theorem contactMetadata_obj (cf pf : List (String × JsonVal)) :
    contactMetadata (.obj cf) (.obj pf) = .ok (metadataListOf cf pf) := rfl

theorem buildItem_obj_err_create {cf pf : List (String × JsonVal)} {e : PyExc}
    (hp : (jsonGet cf "properties").getD (.obj []) = .obj pf)
    (hct : parseTimestampProp (.obj pf) "createdate" = .error e) :
    buildIntegrationItem (.obj cf) = .error e := by
  unfold buildIntegrationItem
  rw [show pyGetD (JsonVal.obj cf) "properties" (JsonVal.obj []) =
        Except.ok ((jsonGet cf "properties").getD (JsonVal.obj [])) from rfl, hp]
  simp only [exceptBind_ok]
  rw [contactMetadata_obj]
  simp only [exceptBind_ok]
  rw [hct]
  rfl

theorem buildItem_obj_err_lastmod {cf pf : List (String × JsonVal)} {ct : Option PyDateTime}
    {e : PyExc}
    (hp : (jsonGet cf "properties").getD (.obj []) = .obj pf)
    (hct : parseTimestampProp (.obj pf) "createdate" = .ok ct)
    (hlt : parseTimestampProp (.obj pf) "lastmodifieddate" = .error e) :
    buildIntegrationItem (.obj cf) = .error e := by
  unfold buildIntegrationItem
  rw [show pyGetD (JsonVal.obj cf) "properties" (JsonVal.obj []) =
        Except.ok ((jsonGet cf "properties").getD (JsonVal.obj [])) from rfl, hp]
  simp only [exceptBind_ok]
  rw [contactMetadata_obj]
  simp only [exceptBind_ok]
  rw [hct]
  simp only [exceptBind_ok]
  rw [hlt]
  rfl

theorem buildItem_obj_ok {cf pf : List (String × JsonVal)} {ct lt : Option PyDateTime}
    (hp : (jsonGet cf "properties").getD (.obj []) = .obj pf)
    (hct : parseTimestampProp (.obj pf) "createdate" = .ok ct)
    (hlt : parseTimestampProp (.obj pf) "lastmodifieddate" = .ok lt) :
    buildIntegrationItem (.obj cf) =
      .ok
        { id := (jsonGet cf "id").getD .null
          type := "contact"
          name := pyStrip (pyStr ((jsonGet pf "firstname").getD (.str "")) ++ " " ++
                    pyStr ((jsonGet pf "lastname").getD (.str "")))
          email := (jsonGet pf "email").getD .null
          creation_time := ct
          last_modified_time := lt
          metadata := metadataListOf cf pf
          raw_data := .obj cf
          visibility := true } := by
  unfold buildIntegrationItem
  rw [show pyGetD (JsonVal.obj cf) "properties" (JsonVal.obj []) =
        Except.ok ((jsonGet cf "properties").getD (JsonVal.obj [])) from rfl, hp]
  simp only [exceptBind_ok]
  rw [contactMetadata_obj]
  simp only [exceptBind_ok]
  rw [hct]
  simp only [exceptBind_ok]
  rw [hlt]
  rfl

theorem buildItem_ok_fields {cf pf : List (String × JsonVal)} {item : IntegrationItem}
    (hp : (jsonGet cf "properties").getD (.obj []) = .obj pf)
    (hb : buildIntegrationItem (.obj cf) = .ok item) :
    ∃ ct lt, parseTimestampProp (.obj pf) "createdate" = .ok ct ∧
      parseTimestampProp (.obj pf) "lastmodifieddate" = .ok lt ∧
      item =
        { id := (jsonGet cf "id").getD .null
          type := "contact"
          name := pyStrip (pyStr ((jsonGet pf "firstname").getD (.str "")) ++ " " ++
                    pyStr ((jsonGet pf "lastname").getD (.str "")))
          email := (jsonGet pf "email").getD .null
          creation_time := ct
          last_modified_time := lt
          metadata := metadataListOf cf pf
          raw_data := .obj cf
          visibility := true } := by
  cases hct : parseTimestampProp (.obj pf) "createdate" with
  | error e => rw [buildItem_obj_err_create hp hct] at hb; exact absurd hb (by simp)
  | ok ct =>
    cases hlt : parseTimestampProp (.obj pf) "lastmodifieddate" with
    | error e => rw [buildItem_obj_err_lastmod hp hct hlt] at hb; exact absurd hb (by simp)
    | ok lt =>
      rw [buildItem_obj_ok hp hct hlt] at hb
      injection hb with hb2
      exact ⟨ct, lt, rfl, rfl, hb2.symm⟩

theorem getItems_ok_items {cf df : List (String × JsonVal)} {resp : HttpResp}
    {recs : List JsonVal} {items : List IntegrationItem}
    (htok : pyTruthy ((jsonGet cf "access_token").getD .null) = true)
    (h2xx : resp.is2xx = true)
    (hbody : jsonLoads resp.body = some (.obj df))
    (hres : (jsonGet df "results").getD (.arr []) = .arr recs)
    (hbuild : buildItems recs = .ok items) :
    get_items_hubspot (.obj cf) resp = .items items := by
  unfold get_items_hubspot getItemsAttempt
  simp only [pyGetD, exceptBind_ok, htok, h2xx, hbody, hres, pyIterate, hbuild]
  simp

theorem getItems_build_error {cf df : List (String × JsonVal)} {resp : HttpResp}
    {recs : List JsonVal} {e : PyExc}
    (htok : pyTruthy ((jsonGet cf "access_token").getD .null) = true)
    (h2xx : resp.is2xx = true)
    (hbody : jsonLoads resp.body = some (.obj df))
    (hres : (jsonGet df "results").getD (.arr []) = .arr recs)
    (hbuild : buildItems recs = .error e) :
    get_items_hubspot (.obj cf) resp = .errPayload (excMsg e) := by
  unfold get_items_hubspot getItemsAttempt
  simp only [pyGetD, exceptBind_ok, htok, h2xx, hbody, hres, pyIterate, hbuild]
  simp only [Bool.true_eq_false, if_false]
  cases e <;> rfl


theorem pyIn_container_ok {v : JsonVal} (h : jsonIsContainer v = true) (k : String) :
    ∃ b : Bool, pyIn k v = .ok b := by
  cases v with
  | obj fields => exact ⟨_, rfl⟩
  | arr xs => exact ⟨_, rfl⟩
  | str s => exact ⟨_, rfl⟩
  | null => simp [jsonIsContainer] at h
  | bool b => simp [jsonIsContainer] at h
  | num n => simp [jsonIsContainer] at h
  | numF t => simp [jsonIsContainer] at h

/-! ## Claim theorems -/

/-- C3: a callback request with no `code` parameter answers the
missing-authorization-code error payload, a callback whose `state` does not
split into exactly two underscore-separated parts answers the invalid-state
payload, and in both cases the Credential Store is returned unchanged. -/
theorem c3_callback_error_paths :
    (∀ (stateParam : Option String) (resp : HttpResp) (store : CredStore),
      oauth2callback_hubspot none stateParam resp store
        = .ok (.errPayload "Authorization code not found", store))
    ∧
    (∀ (c : String) (stateParam : Option String) (resp : HttpResp) (store : CredStore),
      c ≠ "" →
      (pySplit '_' (stateParam.getD "")).length ≠ 2 →
      oauth2callback_hubspot (some c) stateParam resp store
        = .ok (.errPayload "Invalid state parameter", store)) := by
  constructor
  · intro stateParam resp store
    rfl
  · intro c stateParam resp store hc hlen
    unfold oauth2callback_hubspot
    rcases hs : pySplit '_' (stateParam.getD "") with _ | ⟨a, _ | ⟨b, _ | ⟨d, ds⟩⟩⟩
    · simp [hs, hc]
    · simp [hs, hc]
    · exact absurd (by rw [hs]; rfl) hlen
    · simp [hs, hc]

/-- C3 witness at `state = "a_b_c"`. -/
theorem c3_callback_error_paths_witness :
    oauth2callback_hubspot none (some "u_o") ⟨200, "b"⟩ []
      = .ok (.errPayload "Authorization code not found", [])
    ∧ oauth2callback_hubspot (some "c") (some "a_b_c") ⟨200, "b"⟩ []
      = .ok (.errPayload "Invalid state parameter", []) :=
  ⟨c3_callback_error_paths.1 (some "u_o") ⟨200, "b"⟩ [],
   c3_callback_error_paths.2 "c" (some "a_b_c") ⟨200, "b"⟩ [] (by decide) (by decide)⟩

/-- C4: when the stored value decodes to an object, `get_hubspot_credentials`
answers the no-credentials payload if the object lacks an `access_token` key,
and otherwise returns the decoded object itself, unchanged. -/
theorem c4_access_token_gate :
    ∀ (u o s : String) (store : CredStore) (fs : List (String × JsonVal)),
      storeGet store (credKey u o) = some s → s ≠ "" →
      jsonLoads s = some (.obj fs) →
      ("access_token" ∉ fs.map Prod.fst →
        get_hubspot_credentials u o store = .ok (noCredentialsPayload, []))
      ∧ ("access_token" ∈ fs.map Prod.fst →
        get_hubspot_credentials u o store = .ok (.obj fs, [])) := by
  intro u o s store fs hget hne hparse
  constructor
  · intro habs
    simp [get_hubspot_credentials, hget, hne, hparse, pyIn, objHasKey_of_not_mem habs]
  · intro hmem
    simp [get_hubspot_credentials, hget, hne, hparse, pyIn, objHasKey_of_mem hmem]

/-- C4 witness: a stored object without `access_token` and one with it. -/
theorem c4_access_token_gate_witness :
    get_hubspot_credentials "u" "o"
        [⟨credKey "u" "o", jsonDumps (.obj [("expires_in", .num 600)]), .null⟩]
      = .ok (noCredentialsPayload, [])
    ∧ get_hubspot_credentials "u" "o"
        [⟨credKey "u" "o", jsonDumps tokenResponse600, .null⟩]
      = .ok (tokenResponse600, []) :=
  ⟨(c4_access_token_gate "u" "o" (jsonDumps (.obj [("expires_in", .num 600)]))
      [⟨credKey "u" "o", jsonDumps (.obj [("expires_in", .num 600)]), .null⟩]
      [("expires_in", .num 600)] rfl (by decide) rfl).1 (by decide),
   (c4_access_token_gate "u" "o" (jsonDumps tokenResponse600)
      [⟨credKey "u" "o", jsonDumps tokenResponse600, .null⟩]
      tokenFields600 rfl (by decide) rfl).2 (by decide)⟩

/-- C5 counterexample: a present-but-unparseable stored value produces
exactly the same error payload as an absent one — the corrupt-credentials
signal is not distinct from the no-credentials signal; only the log line
differs. -/
theorem c5_corrupt_counterexample :
    get_hubspot_credentials "u" "o" [⟨credKey "u" "o", "not json", .null⟩]
      = .ok (noCredentialsPayload, [parseFailureLog])
    ∧ get_hubspot_credentials "u" "o" [] = .ok (noCredentialsPayload, [])
    ∧ (get_hubspot_credentials "u" "o" [⟨credKey "u" "o", "not json", .null⟩]).map Prod.fst
      = (get_hubspot_credentials "u" "o" []).map Prod.fst :=
  ⟨rfl, rfl, rfl⟩

/-- C5 (amended): an unparseable stored value is logged and handled
non-fatally, but the returned payload is the very no-credentials payload of
the absent-value case; the two cases differ only in the emitted log. -/
theorem c5_corrupt_store_logged_nonfatal :
    (∀ (u o s : String) (store : CredStore),
      storeGet store (credKey u o) = some s → s ≠ "" → jsonLoads s = none →
      get_hubspot_credentials u o store = .ok (noCredentialsPayload, [parseFailureLog]))
    ∧ (∀ (u o : String) (store : CredStore),
      storeGet store (credKey u o) = none →
      get_hubspot_credentials u o store = .ok (noCredentialsPayload, [])) := by
  constructor
  · intro u o s store hget hne hparse
    simp [get_hubspot_credentials, hget, hne, hparse]
  · intro u o store hget
    simp [get_hubspot_credentials, hget]

/-- C5 witness: the amended behaviour at a concrete corrupt store and at an
empty store. -/
theorem c5_corrupt_store_logged_nonfatal_witness :
    get_hubspot_credentials "a" "b" [⟨credKey "a" "b", "\x7b broken", .null⟩]
      = .ok (noCredentialsPayload, [parseFailureLog])
    ∧ get_hubspot_credentials "a" "b" [] = .ok (noCredentialsPayload, []) :=
  ⟨c5_corrupt_store_logged_nonfatal.1 "a" "b" "\x7b broken"
      [⟨credKey "a" "b", "\x7b broken", .null⟩] rfl (by decide) rfl,
   c5_corrupt_store_logged_nonfatal.2 "a" "b" [] rfl⟩

/-- C1: when the token exchange succeeds with
`{"access_token": "tok123", "expires_in": 600}`, the callback stores the
serialized decoded response under `hubspot_credentials_{user_id}_{org_id}`
with TTL 600 (TTL 1800 when `expires_in` is absent), and a subsequent
`get_hubspot_credentials` returns the decoded object, whose `access_token`
is `"tok123"`. -/
theorem c1_success_persists_ttl_roundtrip :
    ∀ (u o c bodyA bodyB : String) (store : CredStore),
      c ≠ "" → '_' ∉ u.data → '_' ∉ o.data →
      jsonLoads bodyA = some tokenResponse600 →
      jsonLoads bodyB = some tokenResponseBare →
      (oauth2callback_hubspot (some c) (some (u ++ "_" ++ o)) ⟨200, bodyA⟩ store
        = .ok (.successPage,
            storeSet store (credKey u o) (jsonDumps tokenResponse600) (.num 600)))
      ∧ storeGetEntry (storeSet store (credKey u o) (jsonDumps tokenResponse600) (.num 600))
            (credKey u o)
          = some ⟨credKey u o, jsonDumps tokenResponse600, .num 600⟩
      ∧ get_hubspot_credentials u o
            (storeSet store (credKey u o) (jsonDumps tokenResponse600) (.num 600))
          = .ok (tokenResponse600, [])
      ∧ jsonGet tokenFields600 "access_token" = some (.str "tok123")
      ∧ (oauth2callback_hubspot (some c) (some (u ++ "_" ++ o)) ⟨200, bodyB⟩ store
        = .ok (.successPage,
            storeSet store (credKey u o) (jsonDumps tokenResponseBare) (.num 1800))) := by
  intro u o c bodyA bodyB store hc hu ho hA hB
  have hsplit := pySplit_underscore hu ho
  refine ⟨?_, storeGetEntry_storeSet_self store (credKey u o) (jsonDumps tokenResponse600)
      (.num 600), ?_, rfl, ?_⟩
  · unfold oauth2callback_hubspot
    simp only [Option.getD_some]
    rw [if_neg hc, hsplit, hA]
    rfl
  · unfold get_hubspot_credentials
    rw [storeGet_storeSet_self]
    rfl
  · unfold oauth2callback_hubspot
    simp only [Option.getD_some]
    rw [if_neg hc, hsplit, hB]
    rfl

/-- C1 witness at `u = "u"`, `o = "o"`, the bodies being the serialized
example responses. -/
theorem c1_success_persists_ttl_roundtrip_witness :
    oauth2callback_hubspot (some "c") (some ("u" ++ "_" ++ "o")) ⟨200, jsonDumps tokenResponse600⟩ []
      = .ok (.successPage,
          storeSet [] (credKey "u" "o") (jsonDumps tokenResponse600) (.num 600))
    ∧ get_hubspot_credentials "u" "o"
        (storeSet [] (credKey "u" "o") (jsonDumps tokenResponse600) (.num 600))
      = .ok (tokenResponse600, []) :=
  ⟨(c1_success_persists_ttl_roundtrip "u" "o" "c" (jsonDumps tokenResponse600)
      (jsonDumps tokenResponseBare) [] (by decide) (by decide) (by decide) rfl rfl).1,
   (c1_success_persists_ttl_roundtrip "u" "o" "c" (jsonDumps tokenResponse600)
      (jsonDumps tokenResponseBare) [] (by decide) (by decide) (by decide) rfl rfl).2.2.1⟩

/-- C2 counterexample: for the underscore-free pair `("a&b", "c")` the URL's
`state` query parameter is `"a"` — the unencoded `&` ends the value — so
splitting it on the delimiter does not reconstruct the pair. -/
theorem c2_state_roundtrip_counterexample :
    urlStateValues (hubspotAuthUrl "a&b" "c") = ["a"]
    ∧ (urlStateValues (hubspotAuthUrl "a&b" "c")).map (fun s => pySplit '_' s)
      ≠ [["a&b", "c"]] := by
  refine ⟨rfl, ?_⟩
  decide

/-- C2 (amended): for identifiers that are nonempty and free of the
delimiter and of query-string metacharacters, the URL built by
`authorize_hubspot` carries exactly one `state` parameter, whose value split
on the delimiter is the original pair. -/
theorem c2_state_roundtrip :
    ∀ u o : String, urlStateSafe u → urlStateSafe o →
      urlStateValues (hubspotAuthUrl u o) = [u ++ "_" ++ o]
      ∧ pySplit '_' (u ++ "_" ++ o) = [u, o] := by
  intro u o hu ho
  have hu_ : '_' ∉ u.data := fun hm => (hu.2 _ hm) (by decide)
  have ho_ : '_' ∉ o.data := fun hm => (ho.2 _ hm) (by decide)
  have hsdata : (u ++ "_" ++ o).data = u.data ++ '_' :: o.data := by
    simp [string_data_append]
  have hamp : '&' ∉ (u ++ "_" ++ o).data := by
    rw [hsdata]
    intro hm
    rcases List.mem_append.mp hm with h1 | h2
    · exact (hu.2 _ h1) (by decide)
    · rcases List.mem_cons.mp h2 with h3 | h4
      · exact absurd h3 (by decide)
      · exact (ho.2 _ h4) (by decide)
  have hhash : '#' ∉ (u ++ "_" ++ o).data := by
    rw [hsdata]
    intro hm
    rcases List.mem_append.mp hm with h1 | h2
    · exact (hu.2 _ h1) (by decide)
    · rcases List.mem_cons.mp h2 with h3 | h4
      · exact absurd h3 (by decide)
      · exact (ho.2 _ h4) (by decide)
  refine ⟨?_, pySplit_underscore hu_ ho_⟩
  have hdrop : dropToQueryStart (hubspotAuthUrl u o).data
      = urlQFull.data ++ (u ++ "_" ++ o).data := rfl
  have htake : takeToHash (urlQFull.data ++ (u ++ "_" ++ o).data)
      = urlQFull.data ++ (u ++ "_" ++ o).data := by
    refine takeToHash_of_not_mem ?_
    intro hm
    rcases List.mem_append.mp hm with h1 | h2
    · exact absurd h1 (by decide)
    · exact hhash h2
  have hq : urlQFull.data ++ (u ++ "_" ++ o).data
      = urlQA1.data ++ '&' :: (urlQA2.data ++ '&' :: (urlQA3.data ++ '&' ::
          ("state=".data ++ (u ++ "_" ++ o).data))) := rfl
  have hlast : '&' ∉ "state=".data ++ (u ++ "_" ++ o).data := by
    intro hm
    rcases List.mem_append.mp hm with h1 | h2
    · exact absurd h1 (by decide)
    · exact hamp h2
  have hsplitAmp : splitCh '&' (urlQFull.data ++ (u ++ "_" ++ o).data)
      = [urlQA1.data, urlQA2.data, urlQA3.data, "state=".data ++ (u ++ "_" ++ o).data] := by
    rw [hq, splitCh_append_sep (by decide), splitCh_append_sep (by decide),
      splitCh_append_sep (by decide), splitCh_eq_single hlast]
  unfold urlStateValues urlQueryPairs
  rw [hdrop, htake, hsplitAmp]
  rfl

/-- C2 witness at the pair `("user42", "orgX")`. -/
theorem c2_state_roundtrip_witness :
    urlStateValues (hubspotAuthUrl "user42" "orgX") = ["user42" ++ "_" ++ "orgX"]
    ∧ pySplit '_' ("user42" ++ "_" ++ "orgX") = ["user42", "orgX"] :=
  c2_state_roundtrip "user42" "orgX" (by decide) (by decide)

/-- C10: every produced item has a metadata mapping with exactly the fixed
key set, in order; a provider property absent from the record appears as
null rather than being omitted, and an absent record id makes `hubspot_id`
null. -/
theorem c10_metadata_fixed_keys :
    ∀ (cf pf : List (String × JsonVal)) (item : IntegrationItem),
      (jsonGet cf "properties").getD (.obj []) = .obj pf →
      buildIntegrationItem (.obj cf) = .ok item →
      item.metadata.map Prod.fst = metadataKeys
      ∧ (∀ mk pk, (mk, pk) ∈ metadataPropSources → pk ∉ pf.map Prod.fst →
          jsonGet item.metadata mk = some .null)
      ∧ ("id" ∉ cf.map Prod.fst → jsonGet item.metadata "hubspot_id" = some .null) := by
  intro cf pf item hp hb
  obtain ⟨ct, lt, hct, hlt, hitem⟩ := buildItem_ok_fields hp hb
  subst hitem
  refine ⟨rfl, ?_, ?_⟩
  · intro mk pk hmem habs
    have hnone := jsonGet_eq_none_of_not_mem habs
    fin_cases hmem <;> simp [metadataListOf, jsonGet, hnone]
  · intro habs
    have hnone := jsonGet_eq_none_of_not_mem habs
    simp [metadataListOf, jsonGet, hnone]

/-- C10 witness: the empty record — every key present, every copied value
null. -/
theorem c10_metadata_fixed_keys_witness :
    ∃ item, buildIntegrationItem (JsonVal.obj []) = .ok item
      ∧ item.metadata.map Prod.fst = metadataKeys
      ∧ jsonGet item.metadata "company" = some .null
      ∧ jsonGet item.metadata "hubspot_id" = some .null := by
  obtain ⟨item, hitem⟩ : ∃ it, buildIntegrationItem (JsonVal.obj []) = .ok it := ⟨_, rfl⟩
  have h := c10_metadata_fixed_keys [] [] item rfl hitem
  exact ⟨item, hitem, h.1,
    h.2.1 "company" "company" (by simp [metadataPropSources]) (by simp),
    h.2.2 (by simp)⟩

/-- C7 counterexample: a record whose `company` property is present but null
gets the description `"Contact at None"` — `props.get("company", "No
Company")` only falls back when the key is absent — not the
`"Contact at No Company"` the claim requires for a company without a
value. -/
theorem c7_description_counterexample :
    (buildIntegrationItem nullCompanyRecord).map (fun it => jsonGet it.metadata "description")
      = .ok (some (.str "Contact at None"))
    ∧ ("Contact at None" : String) ≠ "Contact at No Company"
    ∧ get_items_hubspot (.obj tokenFieldsBare)
        ⟨200, jsonDumps (JsonVal.obj [("results", .arr [nullCompanyRecord])])⟩
      = .items
          [{ id := .str "2"
             type := "contact"
             name := ""
             email := .null
             creation_time := none
             last_modified_time := none
             metadata :=
               [("hubspot_id", .str "2"), ("created_at", .null), ("updated_at", .null),
                ("company", .null), ("website", .null), ("address", .null), ("city", .null),
                ("state", .null), ("country", .null), ("phone", .null),
                ("mobile_phone", .null), ("job_title", .null), ("industry", .null),
                ("lifecycle_stage", .null), ("lead_status", .null),
                ("description", .str "Contact at None")]
             raw_data := nullCompanyRecord
             visibility := true }] :=
  ⟨rfl, by decide, rfl⟩

/-- C7 (amended): the description is `"Contact at No Company"` exactly when
the `company` key is absent; when the key is present the raw value is
interpolated — a string as itself, null as `"None"` — and for the `"Acme"`
example record the description is `"Contact at Acme"`. -/
theorem c7_description_behaviour :
    (∀ (cf pf : List (String × JsonVal)) (item : IntegrationItem),
      (jsonGet cf "properties").getD (.obj []) = .obj pf →
      buildIntegrationItem (.obj cf) = .ok item →
      (jsonGet pf "company" = none →
        jsonGet item.metadata "description" = some (.str "Contact at No Company"))
      ∧ (∀ v, jsonGet pf "company" = some v →
        jsonGet item.metadata "description" = some (.str ("Contact at " ++ pyStr v)))
      ∧ (∀ s, jsonGet pf "company" = some (.str s) →
        jsonGet item.metadata "description" = some (.str ("Contact at " ++ s)))
      ∧ (jsonGet pf "company" = some .null →
        jsonGet item.metadata "description" = some (.str "Contact at None")))
    ∧ (buildIntegrationItem janeRecord).map (fun it => jsonGet it.metadata "description")
      = .ok (some (.str "Contact at Acme")) := by
  constructor
  · intro cf pf item hp hb
    obtain ⟨ct, lt, hct, hlt, hitem⟩ := buildItem_ok_fields hp hb
    subst hitem
    have hdesc : jsonGet (metadataListOf cf pf) "description"
        = some (.str ("Contact at " ++ pyStr ((jsonGet pf "company").getD (.str "No Company"))))
        := rfl
    refine ⟨?_, ?_, ?_, ?_⟩
    · intro habs
      show jsonGet (metadataListOf cf pf) "description" = _
      rw [hdesc, habs]
      rfl
    · intro v hv
      show jsonGet (metadataListOf cf pf) "description" = _
      rw [hdesc, hv]
      rfl
    · intro s hs
      show jsonGet (metadataListOf cf pf) "description" = _
      rw [hdesc, hs]
      rfl
    · intro hnull
      show jsonGet (metadataListOf cf pf) "description" = _
      rw [hdesc, hnull]
      rfl
  · rfl

/-- C7 witness at the null-company record. -/
theorem c7_description_behaviour_witness :
    ∃ item, buildIntegrationItem nullCompanyRecord = .ok item
      ∧ jsonGet item.metadata "description" = some (.str "Contact at None") := by
  obtain ⟨item, hitem⟩ : ∃ it, buildIntegrationItem nullCompanyRecord = .ok it := ⟨_, rfl⟩
  have h := (c7_description_behaviour.1
      [("id", .str "2"), ("properties", .obj [("company", JsonVal.null)])]
      [("company", JsonVal.null)] item rfl hitem).2.2.2 rfl
  exact ⟨item, hitem, h⟩

/-- C6 counterexample: a record whose `createdate` is malformed while its
`lastmodifieddate` parses fine yields no Integration Item at all — the
`ValueError` escapes to the catch-all and the whole fetch returns an error
payload, contradicting the claim that a parse failure does not abort the
record. -/
theorem c6_timestamp_counterexample :
    isoParse (replaceZ "2023-01-01T00:00:00Z") = some ⟨2023, 1, 1, 0, 0, 0, 0, some 0⟩
    ∧ isoParse (replaceZ "garbage") = none
    ∧ buildIntegrationItem mixedTimestampRecord = .error .valueError
    ∧ get_items_hubspot (.obj tokenFieldsBare)
        ⟨200, jsonDumps (JsonVal.obj [("results", .arr [mixedTimestampRecord])])⟩
      = .errPayload (excMsg .valueError) :=
  ⟨rfl, rfl, rfl, rfl⟩

/-- C6 (amended): absence of a timestamp source field is handled
independently — an absent field gives a null timestamp without affecting the
other field or the record — but a present field whose string fails to parse
raises `ValueError`, aborting the record and, through the catch-all, the
entire fetch. -/
theorem c6_timestamp_handling :
    (∀ cf pf : List (String × JsonVal),
      (jsonGet cf "properties").getD (.obj []) = .obj pf →
      ((jsonGet pf "createdate" = none →
         ∀ item, buildIntegrationItem (.obj cf) = .ok item → item.creation_time = none)
       ∧ (jsonGet pf "lastmodifieddate" = none →
         ∀ item, buildIntegrationItem (.obj cf) = .ok item → item.last_modified_time = none)
       ∧ (∀ s dt, jsonGet pf "createdate" = some (.str s) → isoParse (replaceZ s) = some dt →
         ∀ item, buildIntegrationItem (.obj cf) = .ok item → item.creation_time = some dt)
       ∧ (∀ s dt, jsonGet pf "lastmodifieddate" = some (.str s) →
         isoParse (replaceZ s) = some dt →
         ∀ item, buildIntegrationItem (.obj cf) = .ok item → item.last_modified_time = some dt)
       ∧ (∀ s, jsonGet pf "createdate" = some (.str s) → isoParse (replaceZ s) = none →
         buildIntegrationItem (.obj cf) = .error .valueError)
       ∧ (∀ s, jsonGet pf "createdate" = none → jsonGet pf "lastmodifieddate" = some (.str s) →
         isoParse (replaceZ s) = none → buildIntegrationItem (.obj cf) = .error .valueError)))
    ∧ (∀ (cf df : List (String × JsonVal)) (resp : HttpResp) (recs : List JsonVal) (e : PyExc),
      pyTruthy ((jsonGet cf "access_token").getD .null) = true →
      resp.is2xx = true →
      jsonLoads resp.body = some (.obj df) →
      (jsonGet df "results").getD (.arr []) = .arr recs →
      buildItems recs = .error e →
      get_items_hubspot (.obj cf) resp = .errPayload (excMsg e)) := by
  constructor
  · intro cf pf hp
    refine ⟨?_, ?_, ?_, ?_, ?_, ?_⟩
    · intro habs item hb
      obtain ⟨ct, lt, hct, hlt, hitem⟩ := buildItem_ok_fields hp hb
      subst hitem
      have hval : parseTimestampProp (.obj pf) "createdate" = .ok none := by
        simp [parseTimestampProp, habs]
      rw [hval] at hct
      injection hct with h
      exact h.symm
    · intro habs item hb
      obtain ⟨ct, lt, hct, hlt, hitem⟩ := buildItem_ok_fields hp hb
      subst hitem
      have hval : parseTimestampProp (.obj pf) "lastmodifieddate" = .ok none := by
        simp [parseTimestampProp, habs]
      rw [hval] at hlt
      injection hlt with h
      exact h.symm
    · intro s dt hs hparse item hb
      obtain ⟨ct, lt, hct, hlt, hitem⟩ := buildItem_ok_fields hp hb
      subst hitem
      have hval : parseTimestampProp (.obj pf) "createdate" = .ok (some dt) := by
        simp [parseTimestampProp, hs, hparse]
      rw [hval] at hct
      injection hct with h
      exact h.symm
    · intro s dt hs hparse item hb
      obtain ⟨ct, lt, hct, hlt, hitem⟩ := buildItem_ok_fields hp hb
      subst hitem
      have hval : parseTimestampProp (.obj pf) "lastmodifieddate" = .ok (some dt) := by
        simp [parseTimestampProp, hs, hparse]
      rw [hval] at hlt
      injection hlt with h
      exact h.symm
    · intro s hs hparse
      exact buildItem_obj_err_create hp (by simp [parseTimestampProp, hs, hparse])
    · intro s habs hs hparse
      refine buildItem_obj_err_lastmod hp
        (show parseTimestampProp (.obj pf) "createdate" = .ok none by
          simp [parseTimestampProp, habs]) ?_
      simp [parseTimestampProp, hs, hparse]
  · intro cf df resp recs e htok h2xx hbody hres hbuild
    exact getItems_build_error htok h2xx hbody hres hbuild

/-- C6 witness: the example record (present well-formed `createdate`, absent
`lastmodifieddate`) and a fetch aborted by a malformed timestamp. -/
theorem c6_timestamp_handling_witness :
    (∃ item, buildIntegrationItem janeRecord = .ok item
      ∧ item.creation_time = some ⟨2023, 1, 1, 0, 0, 0, 0, some 0⟩
      ∧ item.last_modified_time = none)
    ∧ get_items_hubspot (.obj tokenFieldsBare)
        ⟨200, jsonDumps (JsonVal.obj [("results", .arr [badModifiedRecord])])⟩
      = .errPayload (excMsg .valueError) := by
  constructor
  · obtain ⟨item, hitem⟩ : ∃ it, buildIntegrationItem janeRecord = .ok it := ⟨_, rfl⟩
    have h := c6_timestamp_handling.1
      [("id", .str "1"),
       ("properties", .obj [("firstname", .str "Jane"), ("lastname", .str "Doe"),
                            ("company", .str "Acme"),
                            ("createdate", .str "2023-01-01T00:00:00Z")])]
      [("firstname", .str "Jane"), ("lastname", .str "Doe"), ("company", .str "Acme"),
       ("createdate", .str "2023-01-01T00:00:00Z")] rfl
    exact ⟨item, hitem,
      h.2.2.1 "2023-01-01T00:00:00Z" ⟨2023, 1, 1, 0, 0, 0, 0, some 0⟩ rfl rfl item hitem,
      h.2.1 rfl item hitem⟩
  · exact c6_timestamp_handling.2 tokenFieldsBare [("results", .arr [badModifiedRecord])]
      ⟨200, jsonDumps (JsonVal.obj [("results", .arr [badModifiedRecord])])⟩
      [badModifiedRecord] .valueError rfl rfl rfl rfl rfl

/-- C8 counterexample: a listing response with exactly one record — whose
only timestamp is malformed — produces an error payload, not a one-item
sequence, refuting "exactly one Integration Item per record in the result
list" as a property of every response. -/
theorem c8_per_record_counterexample :
    jsonLoads (jsonDumps (JsonVal.obj [("results", .arr [badModifiedRecord])]))
      = some (.obj [("results", .arr [badModifiedRecord])])
    ∧ get_items_hubspot (.obj tokenFieldsBare)
        ⟨200, jsonDumps (JsonVal.obj [("results", .arr [badModifiedRecord])])⟩
      = .errPayload (excMsg .valueError)
    ∧ (get_items_hubspot (.obj tokenFieldsBare)
        ⟨200, jsonDumps (JsonVal.obj [("results", .arr [badModifiedRecord])])⟩).isErr
      = true :=
  ⟨rfl, rfl, rfl⟩

/-- C8 (amended): whenever every record of the result list normalizes
without raising, the fetch returns exactly one Integration Item per record,
in response order (the i-th item is built from the i-th record, with no
sorting or deduplication), and a result list that is empty or absent yields
the empty sequence rather than an error. -/
theorem c8_per_record_in_order :
    (∀ (cf df : List (String × JsonVal)) (resp : HttpResp) (recs : List JsonVal)
        (items : List IntegrationItem),
      pyTruthy ((jsonGet cf "access_token").getD .null) = true →
      resp.is2xx = true →
      jsonLoads resp.body = some (.obj df) →
      (jsonGet df "results").getD (.arr []) = .arr recs →
      buildItems recs = .ok items →
      get_items_hubspot (.obj cf) resp = .items items
      ∧ items.length = recs.length
      ∧ (∀ i (hi : i < recs.length) (hj : i < items.length),
          buildIntegrationItem (recs.get ⟨i, hi⟩) = .ok (items.get ⟨i, hj⟩)))
    ∧ (∀ (cf df : List (String × JsonVal)) (resp : HttpResp),
      pyTruthy ((jsonGet cf "access_token").getD .null) = true →
      resp.is2xx = true →
      jsonLoads resp.body = some (.obj df) →
      (jsonGet df "results").getD (.arr []) = .arr [] →
      get_items_hubspot (.obj cf) resp = .items []) := by
  constructor
  · intro cf df resp recs items htok h2xx hbody hres hbuild
    exact ⟨getItems_ok_items htok h2xx hbody hres hbuild, buildItems_ok_length hbuild,
      buildItems_ok_get hbuild⟩
  · intro cf df resp htok h2xx hbody hres
    exact getItems_ok_items htok h2xx hbody hres rfl

/-- C8 witness: the one-record example listing and the zero-record
listing. -/
theorem c8_per_record_in_order_witness :
    (∃ items, get_items_hubspot (.obj tokenFieldsBare) ⟨200, jsonDumps janeListing⟩
        = .items items ∧ items.length = 1)
    ∧ get_items_hubspot (.obj tokenFieldsBare)
        ⟨200, jsonDumps (JsonVal.obj [("results", .arr [])])⟩
      = .items [] := by
  constructor
  · obtain ⟨items, hitems⟩ : ∃ xs, buildItems [janeRecord] = .ok xs := ⟨_, rfl⟩
    have h := (c8_per_record_in_order.1 tokenFieldsBare [("results", .arr [janeRecord])]
      ⟨200, jsonDumps janeListing⟩ [janeRecord] items rfl rfl rfl rfl hitems)
    exact ⟨items, h.1, h.2.1⟩
  · exact c8_per_record_in_order.2 tokenFieldsBare [("results", .arr [])]
      ⟨200, jsonDumps (JsonVal.obj [("results", .arr [])])⟩ rfl rfl rfl rfl

/-- C9 counterexample: two modelled provider/store outcomes on which an
operation raises an unhandled exception instead of returning an error
payload — a 2xx token response whose JSON body is not an object
(`AttributeError` from `.get` outside the `try`), and a stored value that
decodes to a number (`TypeError` from the uncaught `in` test). -/
theorem c9_unhandled_fault_counterexample :
    oauth2callback_hubspot (some "c") (some "u_o") ⟨200, "[]"⟩ [] = .error .attributeError
    ∧ get_hubspot_credentials "u" "o" [⟨credKey "u" "o", "42", .null⟩] = .error .typeError :=
  ⟨rfl, rfl⟩

/-- C9 (amended): `authorize_hubspot` and `get_items_hubspot` always return
a value; `oauth2callback_hubspot` returns a value provided a 2xx token body
never decodes to a non-object, and `get_hubspot_credentials` returns a value
provided the stored value never decodes to a non-container — outside those
provisos a fault propagates past the operation. -/
theorem c9_boundary_totality :
    (∀ u o : String, authorize_hubspot u o
      = .obj [("authorization_url", .str (hubspotAuthUrl u o))])
    ∧ (∀ (code stateParam : Option String) (resp : HttpResp) (store : CredStore),
        (∀ v, resp.is2xx = true → jsonLoads resp.body = some v → jsonIsObj v = true) →
        exceptIsOk (oauth2callback_hubspot code stateParam resp store) = true)
    ∧ (∀ (u o : String) (store : CredStore),
        (∀ s v, storeGet store (credKey u o) = some s → jsonLoads s = some v →
          jsonIsContainer v = true) →
        exceptIsOk (get_hubspot_credentials u o store) = true)
    ∧ (∀ (credentials : JsonVal) (resp : HttpResp),
        (∃ xs, get_items_hubspot credentials resp = .items xs)
        ∨ (∃ m, get_items_hubspot credentials resp = .errPayload m)) := by
  refine ⟨fun u o => rfl, ?_, ?_, ?_⟩
  · intro code stateParam resp store hbody
    unfold oauth2callback_hubspot
    by_cases hcode : code.getD "" = ""
    · simp [hcode, exceptIsOk]
    · rw [if_neg hcode]
      rcases pySplit '_' (stateParam.getD "") with _ | ⟨a, _ | ⟨b, _ | ⟨d, ds⟩⟩⟩
      · rfl
      · rfl
      · show exceptIsOk
            (if resp.is2xx = true then
              match jsonLoads resp.body with
              | some response_json =>
                match pyGetD response_json "expires_in" (JsonVal.num 1800) with
                | Except.ok ttl =>
                  Except.ok (CallbackResult.successPage,
                    storeSet store (credKey a b) (jsonDumps response_json) ttl)
                | Except.error e => Except.error e
              | none => Except.ok (CallbackResult.errPayload "Invalid response from HubSpot", store)
            else Except.ok (CallbackResult.errPayload resp.body, store)) = true
        by_cases h2 : resp.is2xx = true
        · rw [if_pos h2]
          cases hl : jsonLoads resp.body with
          | none => rfl
          | some v =>
            have hobj := hbody v h2 hl
            cases v with
            | obj fields => rfl
            | null => simp [jsonIsObj] at hobj
            | bool b2 => simp [jsonIsObj] at hobj
            | num n => simp [jsonIsObj] at hobj
            | numF t => simp [jsonIsObj] at hobj
            | str s => simp [jsonIsObj] at hobj
            | arr xs => simp [jsonIsObj] at hobj
        · rw [if_neg h2]
          rfl
      · rfl
  · intro u o store hstore
    unfold get_hubspot_credentials
    cases hg : storeGet store (credKey u o) with
    | none => rfl
    | some s =>
      show exceptIsOk
          (if s = "" then Except.ok (noCredentialsPayload, [])
          else
            match jsonLoads s with
            | some credentials =>
              match pyIn "access_token" credentials with
              | .ok true => .ok (credentials, [])
              | .ok false => .ok (noCredentialsPayload, [])
              | .error e => .error e
            | none => .ok (noCredentialsPayload, [parseFailureLog])) = true
      by_cases hne : s = ""
      · rw [if_pos hne]
        rfl
      · rw [if_neg hne]
        cases hl : jsonLoads s with
        | none => rfl
        | some v =>
          obtain ⟨b, hb⟩ := pyIn_container_ok (hstore s v hg hl) "access_token"
          show exceptIsOk
              (match pyIn "access_token" v with
              | Except.ok true => Except.ok (v, ([] : List String))
              | Except.ok false => Except.ok (noCredentialsPayload, [])
              | Except.error e => Except.error e) = true
          rw [hb]
          cases b <;> rfl
  · intro credentials resp
    cases get_items_hubspot credentials resp with
    | items xs => exact Or.inl ⟨xs, rfl⟩
    | errPayload m => exact Or.inr ⟨m, rfl⟩

/-- C9 witness: the totality statement applied at concrete outcomes — a
non-2xx token response and an empty store. -/
theorem c9_boundary_totality_witness :
    authorize_hubspot "u" "o" = .obj [("authorization_url", .str (hubspotAuthUrl "u" "o"))]
    ∧ exceptIsOk (oauth2callback_hubspot (some "c") (some "u_o") ⟨500, "denied"⟩ []) = true
    ∧ exceptIsOk (get_hubspot_credentials "u" "o" []) = true :=
  ⟨c9_boundary_totality.1 "u" "o",
   c9_boundary_totality.2.1 (some "c") (some "u_o") ⟨500, "denied"⟩ []
     (fun v h2 _ => absurd h2 (by decide)),
   c9_boundary_totality.2.2.1 "u" "o" []
     (fun s v hs _ => absurd hs (by simp [storeGet, storeGetEntry]))⟩
